import Mathlib

/-
Verification of the beego JSON configuration container
(pkg/infrastructure/config/json/json.go).

The container owns a Go map `data : map[string]interface x`, whose values,
as produced by `json.Unmarshal` and by `Set`, range over the JSON-derived
universe: null, bool, float64, string, `[]interface`, and
`map[string]interface`.  We model those values with the inductive `JValue`,
numbers as exact rationals (a faithful stand-in for the float64 payload in
the integer-truncation rules), and Go maps as association lists with
unique-key insert/overwrite semantics.  The `strMap` constructor records a
value of Go dynamic type `map[string]string`: no value of that dynamic type
is ever produced by `ParseData` or `Set`, but `GetSection` performs a raw
type assertion against it, which we must model to state what `GetSection`
does.

A Go `nil` interface and a stored JSON null are the very same value
(`data[key]` yields the nil interface in both cases), so `getData` returns
`JValue.null` both for an absent key and for a stored null, exactly as the
Go code returns the nil interface for both.

The reader-writer mutex is not modelled: every operation here is the
sequential body executed under the lock.
-/

/-- Alias for the root boolean type, usable inside the container namespace
where the accessor named `Bool` shadows it. -/
abbrev GoBool := Bool

/-- Alias for the root integer type (Go `int` and `int64` payloads). -/
abbrev GoInt := Int

/-- Alias for the root string type, usable inside the container namespace
where the accessor named `String` shadows it. -/
abbrev GoString := String

/-- The float64 payload type of the model: exact rationals. -/
abbrev GoFloat := Rat

inductive JValue where
  | null
  | bool (b : Bool)
  | num (q : Rat)
  | str (s : String)
  | arr (elems : List JValue)
  | obj (entries : List (String × JValue))
  | strMap (entries : List (String × String))

/-- The root mapping type: Go `map[string]interface` with string keys. -/
abbrev JMap := List (String × JValue)

/-- Go map read `m[k]`: `some v` when the key is present (`ok = true`),
`none` when absent.  A stored JSON null is `some JValue.null`. -/
def lookup : JMap → String → Option JValue
  | [], _ => none
  | (k0, v0) :: rest, k => if k0 = k then some v0 else lookup rest k

/-- Go map write `m[k] = v`: overwrite the existing entry or append a new
one. -/
def setKey : JMap → String → JValue → JMap
  | [], k, v => [(k, v)]
  | (k0, v0) :: rest, k, v =>
    if k0 = k then (k, v) :: rest else (k0, v0) :: setKey rest k v

/-- Go map delete: drop every entry with the given key (there is at most
one). -/
def eraseKey : JMap → String → JMap
  | [], _ => []
  | (k0, v0) :: rest, k =>
    if k0 = k then eraseKey rest k else (k0, v0) :: eraseKey rest k

/-- Character-level worker for Go `strings.Split(s, "::")`: split on each
non-overlapping, leftmost occurrence of two consecutive colons.  The
accumulator holds the current segment reversed. -/
def splitChars : List Char → List Char → List (List Char)
  | [], acc => [acc.reverse]
  | ':' :: ':' :: rest, acc => acc.reverse :: splitChars rest []
  | c :: rest, acc => splitChars rest (c :: acc)

/-- Go `strings.Split(key, "::")`. -/
def splitOnColons (key : String) : List String :=
  (splitChars key.data []).map (fun cs => ⟨cs⟩)

/-- Character-level worker for Go `strings.Split(s, ";")`. -/
def splitSemiChars : List Char → List Char → List (List Char)
  | [], acc => [acc.reverse]
  | ';' :: rest, acc => acc.reverse :: splitSemiChars rest []
  | c :: rest, acc => splitSemiChars rest (c :: acc)

/-- Go `strings.Split(s, ";")`. -/
def splitOnSemicolons (s : String) : List String :=
  (splitSemiChars s.data []).map (fun cs => ⟨cs⟩)

/-- Whether the Go dynamic type of the value is `map[string]interface`
(the in-source type assertions `val.(map[string]interface)` test this). -/
def JValue.isObj : JValue → Bool
  | .obj _ => true
  | _ => false

/-- Whether the Go dynamic type of the value is `string`. -/
def JValue.isStr : JValue → Bool
  | .str _ => true
  | _ => false

/-- Whether the Go dynamic type of the value is `float64`. -/
def JValue.isNum : JValue → Bool
  | .num _ => true
  | _ => false

/-- Whether the value is the nil interface / JSON null. -/
def JValue.isNull : JValue → Bool
  | .null => true
  | _ => false

/-- The loop of `getData` over the remaining segments `sectionKeys[1:]`:
if the current value is a `map[string]interface`, descend by the segment,
returning nil (modelled `JValue.null`) immediately when the segment is
absent; for any other current value, keep the current value and continue
with the next segment. -/
def walk : JValue → List String → JValue
  | cur, [] => cur
  | cur, k :: ks =>
    match cur with
    | .obj entries =>
      match lookup entries k with
      | some v => walk v ks
      | none => JValue.null
    | _ => walk cur ks

/-- Go conversion `int(v)` and `int64(v)` on a float64 payload: truncation
toward zero (for in-range values, the only ones the claims exercise). -/
def truncRat (q : Rat) : Int :=
  if 0 ≤ q.num then ((q.num.toNat / q.den : Nat) : Int)
  else -((q.num.natAbs / q.den : Nat) : Int)

/-- Base-10 digit-string evaluator used by the `strconv.Atoi` model. -/
def decDigitsAux : List Char → Nat → Option Nat
  | [], acc => some acc
  | c :: rest, acc =>
    if '0' ≤ c ∧ c ≤ '9' then decDigitsAux rest (acc * 10 + (c.toNat - '0'.toNat))
    else none

/-- Go `strconv.Atoi`: an optional sign followed by one or more ASCII
decimal digits, with the 64-bit signed range check; anything else is an
invalid-syntax error. -/
def atoi (s : String) : Except String Int :=
  let parsed : Option Int :=
    match s.data with
    | [] => none
    | '+' :: rest =>
      if rest = [] then none else (decDigitsAux rest 0).map (fun n => (n : Int))
    | '-' :: rest =>
      if rest = [] then none else (decDigitsAux rest 0).map (fun n => -(n : Int))
    | l => (decDigitsAux l 0).map (fun n => (n : Int))
  match parsed with
  | some v =>
    if -(2 ^ 63) ≤ v ∧ v ≤ 2 ^ 63 - 1 then Except.ok v
    else Except.error ("parsing \"" ++ s ++ "\": value out of range")
  | none => Except.error ("parsing \"" ++ s ++ "\": invalid syntax")

/-- Modelled from the spec: the shared boolean-representation parser
`config.ParseBool` lives in the repository package
`pkg/infrastructure/config`, outside the provided sources.  Per the spec it
"recognizes common truthy/falsy token spellings (e.g., "1"/"t"/"true"/"TRUE"
vs "0"/"f"/"false"/"FALSE", and native booleans)"; every other
representation is a parse error. -/
def ParseBool : JValue → Except String Bool
  | JValue.bool b => Except.ok b
  | JValue.str s =>
    if s = "1" ∨ s = "t" ∨ s = "true" ∨ s = "TRUE" then Except.ok true
    else if s = "0" ∨ s = "f" ∨ s = "false" ∨ s = "FALSE" then Except.ok false
    else Except.error ("parsing \"" ++ s ++ "\": invalid syntax")
  | _ => Except.error "parsing: invalid syntax"

/-- The JSON configuration container: the `data` field of
`JSONConfigContainer` (the embedded `sync.RWMutex` is a runtime artifact
with no value content). -/
structure JSONConfigContainer where
  data : JMap

/-- `getData` (json.go, lines 282-309): the path resolver.  An empty key
returns the nil interface.  Otherwise the key is split on `"::"`; with two
or more segments, the first segment is looked up in the root mapping
(absent means nil) and the remaining segments are walked by `walk`; with a
single segment, the whole key is looked up directly in the root mapping. -/
def JSONConfigContainer.getData (c : JSONConfigContainer) (key : GoString) : JValue :=
  if key.length = 0 then JValue.null
  else if 2 ≤ (splitOnColons key).length then
    match splitOnColons key with
    | [] => JValue.null
    | s0 :: rest =>
      match lookup c.data s0 with
      | none => JValue.null
      | some v => walk v rest
  else
    match lookup c.data key with
    | some v => v
    | none => JValue.null

/-- `Bool` (json.go, lines 119-125): resolve the key; a non-nil value is
handed to the shared boolean parser, a nil value is a not-exist error
(Go formats the key with `%q`, wrapping it in quotes). -/
def JSONConfigContainer.Bool (c : JSONConfigContainer) (key : GoString) : Except GoString GoBool :=
  match c.getData key with
  | JValue.null => Except.error ("not exist key: \"" ++ key ++ "\"")
  | val => ParseBool val

/-- `DefaultBool` (json.go, lines 129-134): the value when `Bool` returns
no error, the caller default otherwise. -/
def JSONConfigContainer.DefaultBool (c : JSONConfigContainer) (key : GoString)
    (defaultVal : GoBool) : GoBool :=
  match c.Bool key with
  | Except.ok v => v
  | Except.error _ => defaultVal

/-- `Int` (json.go, lines 137-148): a float64 value is truncated with
`int(v)`, a string value is parsed with `strconv.Atoi`, any other non-nil
value is a "not valid value" error, nil is a not-exist error. -/
def JSONConfigContainer.Int (c : JSONConfigContainer) (key : GoString) : Except GoString GoInt :=
  match c.getData key with
  | JValue.null => Except.error ("not exist key:" ++ key)
  | JValue.num v => Except.ok (truncRat v)
  | JValue.str v => atoi v
  | _ => Except.error "not valid value"

/-- `DefaultInt` (json.go, lines 152-157). -/
def JSONConfigContainer.DefaultInt (c : JSONConfigContainer) (key : GoString)
    (defaultVal : GoInt) : GoInt :=
  match c.Int key with
  | Except.ok v => v
  | Except.error _ => defaultVal

/-- `Int64` (json.go, lines 160-169): only a float64 value is accepted,
truncated with `int64(v)`. -/
def JSONConfigContainer.Int64 (c : JSONConfigContainer) (key : GoString) : Except GoString GoInt :=
  match c.getData key with
  | JValue.null => Except.error ("not exist key:" ++ key)
  | JValue.num v => Except.ok (truncRat v)
  | _ => Except.error "not int64 value"

/-- `DefaultInt64` (json.go, lines 173-178). -/
def JSONConfigContainer.DefaultInt64 (c : JSONConfigContainer) (key : GoString)
    (defaultVal : GoInt) : GoInt :=
  match c.Int64 key with
  | Except.ok v => v
  | Except.error _ => defaultVal

/-- `Float` (json.go, lines 181-190): only a float64 value is accepted. -/
def JSONConfigContainer.Float (c : JSONConfigContainer) (key : GoString) : Except GoString GoFloat :=
  match c.getData key with
  | JValue.null => Except.error ("not exist key:" ++ key)
  | JValue.num v => Except.ok v
  | _ => Except.error "not float64 value"

/-- `DefaultFloat` (json.go, lines 194-199). -/
def JSONConfigContainer.DefaultFloat (c : JSONConfigContainer) (key : GoString)
    (defaultVal : GoFloat) : GoFloat :=
  match c.Float key with
  | Except.ok v => v
  | Except.error _ => defaultVal

/-- `String` (json.go, lines 202-210): the value when it is a string,
otherwise (wrong dynamic type, nil, or absent key) the empty string; the
error component is nil on every path.  The result is the Go pair
`(string, error)` with the error modelled as `Option String`. -/
def JSONConfigContainer.String (c : JSONConfigContainer) (key : GoString) :
    GoString × Option GoString :=
  match c.getData key with
  | JValue.str v => (v, none)
  | _ => ("", none)

/-- `DefaultString` (json.go, lines 214-220): the `String` result only when
it is nonempty and errorless (the source carries a
"TODO FIXME should not use the empty string to replace non existence"
comment on this test), the caller default otherwise. -/
def JSONConfigContainer.DefaultString (c : JSONConfigContainer) (key defaultVal : GoString) :
    GoString :=
  let sv := c.String key
  if sv.1 ≠ "" ∧ sv.2 = none then sv.1 else defaultVal

/-- `Strings` (json.go, lines 223-229): the `String` result split on `";"`;
an empty string result (or an error, though `String` never produces one)
yields the Go nil slice, modelled `none`, with the same error. -/
def JSONConfigContainer.Strings (c : JSONConfigContainer) (key : GoString) :
    Option (List GoString) × Option GoString :=
  let sv := c.String key
  if sv.1 = "" ∨ sv.2 ≠ none then (none, sv.2)
  else (some (splitOnSemicolons sv.1), none)

/-- `DefaultStrings` (json.go, lines 233-238): the `Strings` result only
when it is non-nil and errorless, the caller default otherwise. -/
def JSONConfigContainer.DefaultStrings (c : JSONConfigContainer) (key : GoString)
    (defaultVal : List GoString) : List GoString :=
  let sv := c.Strings key
  match sv.1, sv.2 with
  | some v, none => v
  | _, _ => defaultVal

/-- Outcome of a Go call that can return normally, return an error, or
panic.  `panicked` models an uncaught runtime fault (a failed unchecked
type assertion), which no error-valued return path can represent. -/
inductive GoOutcome (α : Type) where
  | ok (a : α)
  | err (msg : String)
  | panicked (msg : String)

/-- `GetSection` (json.go, lines 241-246): a direct (single-segment, no
splitting) read of `data[sectionName]`; when present, the value is passed
through the unchecked type assertion `v.(map[string]string)`, which
panics unless the dynamic type is exactly `map[string]string`; when
absent, a "nonexist section" error. -/
def JSONConfigContainer.GetSection (c : JSONConfigContainer) (sectionName : GoString) :
    GoOutcome (List (GoString × GoString)) :=
  match lookup c.data sectionName with
  | some (JValue.strMap sm) => GoOutcome.ok sm
  | some _ => GoOutcome.panicked "interface conversion: not map[string]string"
  | none => GoOutcome.err ("nonexist section " ++ sectionName)

/-- `Set` (json.go, lines 265-270): under the write lock, the single map
assignment `data[key] = val`, storing the value with dynamic type
`string`; the returned error is always nil.  The updated container is
returned explicitly (state passing). -/
def JSONConfigContainer.Set (c : JSONConfigContainer) (key val : GoString) :
    JSONConfigContainer × Option GoString :=
  (⟨setKey c.data key (JValue.str val)⟩, none)

/-- `DIY` (json.go, lines 273-279): the raw resolved value, or a
"not exist key" error (without the key name) when resolution yields nil. -/
def JSONConfigContainer.DIY (c : JSONConfigContainer) (key : GoString) : Except GoString JValue :=
  match c.getData key with
  | JValue.null => Except.error "not exist key"
  | val => Except.ok val

/-- `sub` (json.go, lines 98-112): an empty key yields the whole root
mapping; otherwise a direct (no splitting) read of `data[key]`: absent is
a "key is not found" error, a value whose dynamic type is not
`map[string]interface` is a "the type of value is invalid" error, and a
mapping value is returned as is. -/
def JSONConfigContainer.sub (c : JSONConfigContainer) (key : GoString) : Except GoString JMap :=
  if key = "" then Except.ok c.data
  else
    match lookup c.data key with
    | none => Except.error ("key is not found: " ++ key)
    | some v =>
      match v with
      | JValue.obj res => Except.ok res
      | _ => Except.error ("the type of value is invalid, key: " ++ key)

/-- `Sub` (json.go, lines 88-96): wrap the `sub` result in a fresh
container. -/
def JSONConfigContainer.Sub (c : JSONConfigContainer) (key : GoString) :
    Except GoString JSONConfigContainer :=
  match c.sub key with
  | Except.error e => Except.error e
  | Except.ok s => Except.ok ⟨s⟩

/-- Raw document bytes. -/
abbrev ByteSeq := List Nat

/-- The two standard-library JSON decoders (`json.Unmarshal` into
`map[string]interface` and into `[]interface`) and the repository
environment-variable expander (`config.ExpandValueEnvForMap`, outside the
provided sources) that `ParseData` composes; all three are collaborators
outside this file's source, so they are parameters of the embedding. -/
structure DecodeEnv where
  decodeObj : ByteSeq → Except String JMap
  decodeArr : ByteSeq → Except String (List JValue)
  expandEnv : JMap → JMap

/-- `ParseData` (json.go, lines 54-71): decode the bytes as an object into
the initially empty root mapping; on failure, decode them as an array and,
on success, store the sequence under the literal key "rootArray" (an
object decode that fails while an array decode succeeds fails on the
top-level type mismatch, before any entry is inserted, so the root mapping
is still empty at that point); when both decodes fail, the original
object-decode error is returned and the array-decode error is dropped.
The successful root mapping then passes once through the environment
expander. -/
def ParseData (env : DecodeEnv) (data : ByteSeq) : Except String JSONConfigContainer :=
  match env.decodeObj data with
  | Except.ok m => Except.ok ⟨env.expandEnv m⟩
  | Except.error err =>
    match env.decodeArr data with
    | Except.error _ => Except.error err
    | Except.ok arr => Except.ok ⟨env.expandEnv (setKey [] "rootArray" (JValue.arr arr))⟩

/-- A value that is not a `map[string]interface` is kept unchanged by the
remaining-segment walk: every further segment hits the non-mapping branch
of the loop, which leaves the current value alone. -/
theorem walk_keep (v : JValue) (h : v.isObj = false) :
    ∀ ks : List String, walk v ks = v := by
  intro ks
  induction ks with
  | nil => rfl
  | cons k ks ih => cases v <;> simp_all [walk, JValue.isObj]

/-- Reading back the key just written by the map assignment. -/
theorem lookup_setKey_self (m : JMap) (k : String) (v : JValue) :
    lookup (setKey m k v) k = some v := by
  induction m with
  | nil => simp [setKey, lookup]
  | cons p rest ih =>
    obtain ⟨k0, v0⟩ := p
    by_cases hk : k0 = k
    · simp [setKey, hk, lookup]
    · simp [setKey, hk, lookup, ih]

/-- A map assignment leaves every other key unchanged. -/
theorem lookup_setKey_other (m : JMap) (k k2 : String) (v : JValue) (h : k2 ≠ k) :
    lookup (setKey m k v) k2 = lookup m k2 := by
  have hne : ¬(k = k2) := fun hh => h hh.symm
  induction m with
  | nil => simp [setKey, lookup, hne]
  | cons p rest ih =>
    obtain ⟨k0, v0⟩ := p
    by_cases hk : k0 = k
    · subst hk
      simp [setKey, lookup, hne]
    · simp [setKey, hk, lookup, ih]

/-- After deleting a key it is no longer found. -/
theorem lookup_eraseKey_self (m : JMap) (k : String) :
    lookup (eraseKey m k) k = none := by
  induction m with
  | nil => rfl
  | cons p rest ih =>
    obtain ⟨k0, v0⟩ := p
    by_cases hk : k0 = k
    · simp [eraseKey, hk, ih]
    · simp [eraseKey, hk, lookup, ih]

/-- Splitting the empty string yields the singleton list of the empty
string, as Go `strings.Split` does. -/
theorem splitOnColons_empty : splitOnColons "" = [""] := rfl

/-- A key that splits into two or more segments is nonempty. -/
theorem key_ne_empty_of_split (key : String) (s0 s1 : String) (rest : List String)
    (h : splitOnColons key = s0 :: s1 :: rest) : key.length ≠ 0 := by
  intro h0
  have hk : key = "" := by
    cases key with
    | mk data =>
      cases data with
      | nil => rfl
      | cons c cs => simp [String.length] at h0
  subst hk
  rw [splitOnColons_empty] at h
  simp at h

/-- `getData` on the empty key is the nil interface. -/
theorem getData_empty_key (c : JSONConfigContainer) : c.getData "" = JValue.null := rfl

/-- `getData` on a nonempty single-segment key is the direct root lookup. -/
theorem getData_single (c : JSONConfigContainer) (key : String) (h1 : key.length ≠ 0)
    (h2 : (splitOnColons key).length < 2) :
    c.getData key =
      (match lookup c.data key with
       | some v => v
       | none => JValue.null) := by
  unfold JSONConfigContainer.getData
  rw [if_neg h1, if_neg (by omega)]

/-- `getData` on a multi-segment key looks up the first segment and walks
the remaining segments. -/
theorem getData_multi (c : JSONConfigContainer) (key s0 s1 : String) (rest : List String)
    (h : splitOnColons key = s0 :: s1 :: rest) :
    c.getData key =
      (match lookup c.data s0 with
       | none => JValue.null
       | some v => walk v (s1 :: rest)) := by
  have h1 := key_ne_empty_of_split key s0 s1 rest h
  unfold JSONConfigContainer.getData
  rw [if_neg h1, h, if_pos (by simp)]

/-- Claim C1: for every key with two or more `::`-separated segments, the
path walk looks up the first segment in the root mapping (absent first
segment resolves to nothing) and processes the remaining segments in order
(`walk`); when the current value is a mapping it descends by the segment,
returning not-found immediately if the segment is absent, and when the
current value is not a mapping it keeps the previous value and continues,
so a key `a::b::c` whose prefix `a::b` holds a non-mapping value resolves
to the value stored at `a::b`. -/
theorem getData_multisegment_walk (c : JSONConfigContainer) (key s0 s1 : GoString)
    (rest : List GoString) (hsplit : splitOnColons key = s0 :: s1 :: rest) :
    (lookup c.data s0 = none → c.getData key = JValue.null) ∧
    (∀ v, lookup c.data s0 = some v → c.getData key = walk v (s1 :: rest)) ∧
    (∀ entries, lookup c.data s0 = some (JValue.obj entries) → lookup entries s1 = none →
      c.getData key = JValue.null) ∧
    (∀ entries v, lookup c.data s0 = some (JValue.obj entries) → lookup entries s1 = some v →
      v.isObj = false → c.getData key = v) := by
  refine ⟨?_, ?_, ?_, ?_⟩
  · intro h
    rw [getData_multi c key s0 s1 rest hsplit, h]
  · intro v h
    rw [getData_multi c key s0 s1 rest hsplit, h]
  · intro entries h h2
    rw [getData_multi c key s0 s1 rest hsplit, h]
    simp [walk, h2]
  · intro entries v h h2 hv
    rw [getData_multi c key s0 s1 rest hsplit, h]
    simp [walk, h2, walk_keep v hv rest]

/-- Witness for C1: in `{"a": {"b": 7}}` the key `"a::b::c"` resolves to
the number stored at `a::b`, because that value is not a mapping. -/
theorem getData_multisegment_walk_witness :
    splitOnColons "a::b::c" = ["a", "b", "c"] ∧
    (JValue.num 7).isObj = false ∧
    (JSONConfigContainer.mk [("a", JValue.obj [("b", JValue.num 7)])]).getData "a::b::c"
      = JValue.num 7 :=
  ⟨rfl, rfl,
    (getData_multisegment_walk ⟨[("a", JValue.obj [("b", JValue.num 7)])]⟩ "a::b::c"
        "a" "b" ["c"] rfl).2.2.2 [("b", JValue.num 7)] (JValue.num 7) rfl rfl rfl⟩

/-- Claim C2 (code bug): `GetSection` on a present section whose value is a
parsed JSON object does not return an error value; it dies on the
unchecked type assertion `v.(map[string]string)`, an uncatchable runtime
fault, while an absent section does return an explicit error. -/
theorem GetSection_panics_on_parsed_section :
    (JSONConfigContainer.mk [("sec", JValue.obj [("a", JValue.str "b")])]).GetSection "sec"
      = GoOutcome.panicked "interface conversion: not map[string]string" ∧
    (JSONConfigContainer.mk [("sec", JValue.obj [("a", JValue.str "b")])]).GetSection "missing"
      = GoOutcome.err "nonexist section missing" :=
  ⟨rfl, rfl⟩

/-- Counterexample to C3: in `{"a": {"b": {"c": "v"}}}` the multi-segment
key `"a::b"` resolves (via the path-resolution algorithm) to the nested
mapping, yet `sub` reports it as not found, because `sub` looks the whole
key up literally and never splits on `::`. -/
theorem Sub_ignores_multisegment_cex :
    (JSONConfigContainer.mk
        [("a", JValue.obj [("b", JValue.obj [("c", JValue.str "v")])])]).getData "a::b"
      = JValue.obj [("c", JValue.str "v")] ∧
    (JSONConfigContainer.mk
        [("a", JValue.obj [("b", JValue.obj [("c", JValue.str "v")])])]).sub "a::b"
      = Except.error "key is not found: a::b" :=
  ⟨rfl, rfl⟩

/-- Claim C3 as amended: sub-extraction performs a direct top-level lookup
of the literal key, with no `::` splitting: the empty key yields a
sub-container over the entire current root, a literal key absent from the
root mapping yields a not-found error, a present key holding a mapping
yields a sub-container over that mapping, and a present key holding a
non-mapping yields a type error. -/
theorem sub_literal_lookup (c : JSONConfigContainer) (key : GoString) :
    c.sub "" = Except.ok c.data ∧
    (key ≠ "" → lookup c.data key = none →
      c.sub key = Except.error ("key is not found: " ++ key) ∧
      c.Sub key = Except.error ("key is not found: " ++ key)) ∧
    (∀ entries, key ≠ "" → lookup c.data key = some (JValue.obj entries) →
      c.sub key = Except.ok entries ∧ c.Sub key = Except.ok ⟨entries⟩) ∧
    (∀ v, key ≠ "" → lookup c.data key = some v → v.isObj = false →
      c.sub key = Except.error ("the type of value is invalid, key: " ++ key)) := by
  refine ⟨rfl, ?_, ?_, ?_⟩
  · intro hk h
    have hs : c.sub key = Except.error ("key is not found: " ++ key) := by
      simp [JSONConfigContainer.sub, hk, h]
    exact ⟨hs, by simp [JSONConfigContainer.Sub, hs]⟩
  · intro entries hk h
    have hs : c.sub key = Except.ok entries := by
      simp [JSONConfigContainer.sub, hk, h]
    exact ⟨hs, by simp [JSONConfigContainer.Sub, hs]⟩
  · intro v hk h hv
    cases v <;> simp_all [JSONConfigContainer.sub, JValue.isObj]

/-- Witness for the amended C3: extracting the literal key `"a"`, which
holds a mapping, yields a sub-container over that mapping. -/
theorem sub_literal_lookup_witness :
    ("a" : GoString) ≠ "" ∧
    lookup [("a", JValue.obj [("b", JValue.str "x")])] "a"
      = some (JValue.obj [("b", JValue.str "x")]) ∧
    (JSONConfigContainer.mk [("a", JValue.obj [("b", JValue.str "x")])]).Sub "a"
      = Except.ok ⟨[("b", JValue.str "x")]⟩ :=
  ⟨by decide, rfl,
    ((sub_literal_lookup ⟨[("a", JValue.obj [("b", JValue.str "x")])]⟩ "a").2.2.1
      [("b", JValue.str "x")] (by decide) rfl).2⟩

/-- Counterexample to C4: on the container `{"a": "x"}` the raw accessor
at the empty key does not return the whole root mapping; `getData`
resolves the empty key to nothing, so `DIY` reports a not-found error. -/
theorem emptyKey_raw_accessor_cex :
    (JSONConfigContainer.mk [("a", JValue.str "x")]).DIY "" = Except.error "not exist key" ∧
    (JSONConfigContainer.mk [("a", JValue.str "x")]).getData "" = JValue.null :=
  ⟨rfl, rfl⟩

/-- Claim C4 as amended: only sub-tree extraction treats the empty key as
the whole current root; through `getData` the empty key resolves to
nothing, so the raw accessor and the typed numeric and boolean accessors
fail as for an absent key, and the string accessor returns the empty
string with no error. -/
theorem emptyKey_behavior (c : JSONConfigContainer) :
    c.sub "" = Except.ok c.data ∧
    c.Sub "" = Except.ok ⟨c.data⟩ ∧
    c.getData "" = JValue.null ∧
    c.DIY "" = Except.error "not exist key" ∧
    c.Bool "" = Except.error "not exist key: \"\"" ∧
    c.Int "" = Except.error "not exist key:" ∧
    c.Int64 "" = Except.error "not exist key:" ∧
    c.Float "" = Except.error "not exist key:" ∧
    c.String "" = ("", none) :=
  ⟨rfl, rfl, rfl, rfl, rfl, rfl, rfl, rfl, rfl⟩

/-- Claim C5 (code bug): `DefaultString` does not return the accessor
value exactly when the accessor succeeds.  On `{"k": ""}` the `String`
accessor succeeds, with value the stored empty string and a nil error, yet
`DefaultString` discards that successful value and returns the caller
default (the source marks this with a TODO FIXME comment). -/
theorem DefaultString_drops_empty_success :
    (JSONConfigContainer.mk [("k", JValue.str "")]).String "k" = ("", none) ∧
    (JSONConfigContainer.mk [("k", JValue.str "")]).DefaultString "k" "fallback" = "fallback" :=
  ⟨rfl, rfl⟩

/-- Claim C6: `ParseData` first decodes the bytes as an object; on failure
it decodes them as an array and wraps a successful sequence as the root
mapping under the literal key "rootArray"; when both decodes fail, the
original object-decode error is returned and the array-decode error is
suppressed. -/
theorem ParseData_object_then_array_fallback (env : DecodeEnv) (data : ByteSeq) :
    (∀ m, env.decodeObj data = Except.ok m →
      ParseData env data = Except.ok ⟨env.expandEnv m⟩) ∧
    (∀ e arr, env.decodeObj data = Except.error e → env.decodeArr data = Except.ok arr →
      ParseData env data = Except.ok ⟨env.expandEnv [("rootArray", JValue.arr arr)]⟩) ∧
    (∀ e e2, env.decodeObj data = Except.error e → env.decodeArr data = Except.error e2 →
      ParseData env data = Except.error e) := by
  refine ⟨?_, ?_, ?_⟩
  · intro m h
    simp [ParseData, h]
  · intro e arr h h2
    simp [ParseData, h, h2, setKey]
  · intro e e2 h h2
    simp [ParseData, h, h2]

/-- Witness for C6: with an object decoder that fails and an array decoder
that succeeds, the sequence is wrapped under "rootArray". -/
theorem ParseData_object_then_array_fallback_witness :
    (DecodeEnv.mk (fun _ => Except.error "obj decode failed")
        (fun _ => Except.ok [JValue.num 1]) (fun m => m)).decodeObj []
      = Except.error "obj decode failed" ∧
    ParseData (DecodeEnv.mk (fun _ => Except.error "obj decode failed")
        (fun _ => Except.ok [JValue.num 1]) (fun m => m)) []
      = Except.ok ⟨[("rootArray", JValue.arr [JValue.num 1])]⟩ :=
  ⟨rfl,
    (ParseData_object_then_array_fallback (DecodeEnv.mk
        (fun _ => Except.error "obj decode failed")
        (fun _ => Except.ok [JValue.num 1]) (fun m => m)) []).2.1
      "obj decode failed" [JValue.num 1] rfl rfl⟩

/-- Claim C7: `Set` stores the value under the literal key as one direct
top-level entry (a dotted key becomes a single literal key, with no
intermediate mappings created), returns a nil error, and leaves every
other entry of the root mapping unchanged. -/
theorem Set_literal_toplevel (c : JSONConfigContainer) (key val : GoString) :
    ((c.Set key val).2 = none) ∧
    lookup (c.Set key val).1.data key = some (JValue.str val) ∧
    (∀ k2, k2 ≠ key → lookup (c.Set key val).1.data k2 = lookup c.data k2) := by
  refine ⟨rfl, ?_, ?_⟩
  · exact lookup_setKey_self c.data key (JValue.str val)
  · intro k2 h
    exact lookup_setKey_other c.data key k2 (JValue.str val) h

/-- Witness for C7: setting the dotted key `"a::b"` leaves the unrelated
entry `"other"` untouched. -/
theorem Set_literal_toplevel_witness :
    ("other" : GoString) ≠ "a::b" ∧
    lookup ((JSONConfigContainer.mk [("other", JValue.num 1)]).Set "a::b" "v").1.data "other"
      = some (JValue.num 1) :=
  ⟨by decide,
    ((Set_literal_toplevel ⟨[("other", JValue.num 1)]⟩ "a::b" "v").2.2 "other"
      (by decide)).trans rfl⟩

/-- Claim C8: the string accessor returns the resolved node exactly when
that node is a string; for a node of any other dynamic type, including the
nil of an absent key, it returns the empty string, and the error component
is nil on every path. -/
theorem String_accessor_spec (c : JSONConfigContainer) (key : GoString) :
    (∀ s, c.getData key = JValue.str s → c.String key = (s, none)) ∧
    ((c.getData key).isStr = false → c.String key = ("", none)) := by
  constructor
  · intro s h
    simp [JSONConfigContainer.String, h]
  · intro h
    cases hv : c.getData key <;> simp_all [JSONConfigContainer.String, JValue.isStr]

/-- Witness for C8: a stored string comes back unchanged with a nil
error. -/
theorem String_accessor_spec_witness :
    (JSONConfigContainer.mk [("k", JValue.str "v")]).getData "k" = JValue.str "v" ∧
    (JSONConfigContainer.mk [("k", JValue.str "v")]).String "k" = ("v", none) :=
  ⟨rfl, (String_accessor_spec ⟨[("k", JValue.str "v")]⟩ "k").1 "v" rfl⟩

/-- Claim C9: the integer accessor truncates a numeric node toward zero,
parses a string node as a base-10 integer, and fails when neither applies
or the key resolves to nothing; after `Set "x" "5"`, `Int "x"` returns 5
while `Bool "x"` fails because "5" is not a recognized boolean token. -/
theorem Int_accessor_spec (c : JSONConfigContainer) (key : GoString) :
    (∀ q, c.getData key = JValue.num q → c.Int key = Except.ok (truncRat q)) ∧
    (∀ s, c.getData key = JValue.str s → c.Int key = atoi s) ∧
    (c.getData key = JValue.null → c.Int key = Except.error ("not exist key:" ++ key)) ∧
    ((c.getData key).isNum = false → (c.getData key).isStr = false →
      (c.getData key).isNull = false → c.Int key = Except.error "not valid value") ∧
    (∀ c2 : JSONConfigContainer, ((c2.Set "x" "5").1).Int "x" = Except.ok 5 ∧
      ((c2.Set "x" "5").1).Bool "x" = Except.error "parsing \"5\": invalid syntax") := by
  refine ⟨?_, ?_, ?_, ?_, ?_⟩
  · intro q h
    simp [JSONConfigContainer.Int, h]
  · intro s h
    simp [JSONConfigContainer.Int, h]
  · intro h
    simp [JSONConfigContainer.Int, h]
  · intro h1 h2 h3
    cases hv : c.getData key <;>
      simp_all [JSONConfigContainer.Int, JValue.isNum, JValue.isStr, JValue.isNull]
  · intro c2
    have hg : ((c2.Set "x" "5").1).getData "x" = JValue.str "5" := by
      show (JSONConfigContainer.mk (setKey c2.data "x" (JValue.str "5"))).getData "x"
        = JValue.str "5"
      rw [getData_single ⟨setKey c2.data "x" (JValue.str "5")⟩ "x" (by decide) (by decide)]
      simp [lookup_setKey_self]
    constructor
    · have hi : ((c2.Set "x" "5").1).Int "x" = atoi "5" := by
        simp [JSONConfigContainer.Int, hg]
      exact hi.trans rfl
    · have hb : ((c2.Set "x" "5").1).Bool "x" = ParseBool (JValue.str "5") := by
        simp [JSONConfigContainer.Bool, hg]
      exact hb.trans rfl

/-- Witness for C9: a fractional number is truncated toward zero, and the
`Set`-then-read round trips behave as claimed on a concrete container. -/
theorem Int_accessor_spec_witness :
    (JSONConfigContainer.mk [("n", JValue.num (mkRat 5 2))]).getData "n"
      = JValue.num (mkRat 5 2) ∧
    (JSONConfigContainer.mk [("n", JValue.num (mkRat 5 2))]).Int "n" = Except.ok 2 ∧
    ((JSONConfigContainer.mk []).Set "x" "5").1.Int "x" = Except.ok 5 ∧
    ((JSONConfigContainer.mk []).Set "x" "5").1.Bool "x"
      = Except.error "parsing \"5\": invalid syntax" :=
  ⟨rfl,
    ((Int_accessor_spec ⟨[("n", JValue.num (mkRat 5 2))]⟩ "n").1 (mkRat 5 2) rfl).trans rfl,
    ((Int_accessor_spec ⟨[]⟩ "n").2.2.2.2 ⟨[]⟩).1,
    ((Int_accessor_spec ⟨[]⟩ "n").2.2.2.2 ⟨[]⟩).2⟩

/-- Claim C10: a direct key holding JSON null is indistinguishable from an
absent key: `getData` resolves both to the nil interface, so every typed
accessor and the raw accessor return exactly what they return after the
key is deleted; `Bool`, `Int`, `Int64`, `Float` and `DIY` return their
not-found errors, and `String` returns the empty string with a nil
error. -/
theorem null_value_indistinguishable_from_absent (c : JSONConfigContainer) (key : GoString)
    (h1 : key.length ≠ 0) (h2 : (splitOnColons key).length < 2)
    (h3 : lookup c.data key = some JValue.null) :
    c.getData key = JValue.null ∧
    (JSONConfigContainer.mk (eraseKey c.data key)).getData key = JValue.null ∧
    c.Bool key = (JSONConfigContainer.mk (eraseKey c.data key)).Bool key ∧
    c.Int key = (JSONConfigContainer.mk (eraseKey c.data key)).Int key ∧
    c.Int64 key = (JSONConfigContainer.mk (eraseKey c.data key)).Int64 key ∧
    c.Float key = (JSONConfigContainer.mk (eraseKey c.data key)).Float key ∧
    c.String key = (JSONConfigContainer.mk (eraseKey c.data key)).String key ∧
    c.DIY key = (JSONConfigContainer.mk (eraseKey c.data key)).DIY key ∧
    c.Bool key = Except.error ("not exist key: \"" ++ key ++ "\"") ∧
    c.Int key = Except.error ("not exist key:" ++ key) ∧
    c.Int64 key = Except.error ("not exist key:" ++ key) ∧
    c.Float key = Except.error ("not exist key:" ++ key) ∧
    c.String key = ("", none) ∧
    c.DIY key = Except.error "not exist key" := by
  have hg : c.getData key = JValue.null := by
    rw [getData_single c key h1 h2, h3]
  have hg2 : (JSONConfigContainer.mk (eraseKey c.data key)).getData key = JValue.null := by
    rw [getData_single ⟨eraseKey c.data key⟩ key h1 h2]
    simp [lookup_eraseKey_self]
  refine ⟨hg, hg2, ?_, ?_, ?_, ?_, ?_, ?_, ?_, ?_, ?_, ?_, ?_, ?_⟩ <;>
    simp [JSONConfigContainer.Bool, JSONConfigContainer.Int, JSONConfigContainer.Int64,
      JSONConfigContainer.Float, JSONConfigContainer.String, JSONConfigContainer.DIY, hg, hg2]

/-- Witness for C10: on `{"k": null}` the resolver yields the nil
interface for the present key `"k"`. -/
theorem null_value_indistinguishable_from_absent_witness :
    ("k" : GoString).length ≠ 0 ∧ (splitOnColons "k").length < 2 ∧
    lookup [("k", JValue.null)] "k" = some JValue.null ∧
    (JSONConfigContainer.mk [("k", JValue.null)]).getData "k" = JValue.null :=
  ⟨by decide, by decide, rfl,
    (null_value_indistinguishable_from_absent ⟨[("k", JValue.null)]⟩ "k"
      (by decide) (by decide) rfl).1⟩

